import Mathlib

/-!
Shallow embedding of the studentDashboard repository's data pipeline.

The repository has two Streamlit front ends sharing the same core logic:
`src/data.py` (teacher dashboard) and `src/main.py` (student dashboard).
The embedding below models, straight from the source:

* the normalization pipeline of `fetch_data` (both files): header trimming,
  blank-header replacement, duplicate-header suffixing via
  `groupby(...).cumcount().astype(str).replace('0','')`, the
  `replace('', nan)` / `fillna('')` cell pipeline, and the `'Hr'` numeric
  coercion via `pd.to_numeric(..., errors='coerce').fillna(0)`;
* `merge_teacher_student` (data.py lines 52-64) with its empty-input check,
  column renames, projection, pandas left merge and `except` fallback;
* the teacher login block of `data.py main` (lines 130-161) and the student
  login block of `main.py main` (lines 87-123);
* `get_teacher_profile` and `get_supaleran_demofit` (data.py lines 76-93),
  which assign to a column of their argument DataFrame and therefore mutate
  it in place; mutation is modelled by returning the post-state of the
  argument alongside the result (state-passing embedding).

Machine floats produced by `pd.to_numeric` are modelled as rationals.
-/

/-! ## Python string primitives -/

/-- Characters removed by Python's `str.strip()` / pandas `.str.strip()`. -/
def stripChars (l : List Char) : List Char :=
  ((l.dropWhile Char.isWhitespace).reverse.dropWhile Char.isWhitespace).reverse

/-- Python `s.strip()`. -/
def pyStrip (s : String) : String := ⟨stripChars s.data⟩

/-- Python `s.lower()` (per-character lowercasing). -/
def pyLower (s : String) : String := ⟨s.data.map Char.toLower⟩

/-- Python `s.zfill(n)` on an unsigned string: left-pad with `'0'` to width `n`. -/
def zfill (n : Nat) (s : String) : String :=
  if n ≤ s.length then s else ⟨List.replicate (n - s.length) '0' ++ s.data⟩

/-- Boolean substring test on character lists (Python's `needle in hay`). -/
def infixOfB (needle : List Char) : List Char → Bool
  | [] => needle.isEmpty
  | c :: t => needle.isPrefixOf (c :: t) || infixOfB needle t

/-- Python's `needle in hay` for strings. -/
def pyIn (needle hay : String) : Bool := infixOfB needle.data hay.data

/-! ## Cells and relations -/

/-- A cell of the in-memory relation: a string, a number (the `'Hr'` measure
column after `pd.to_numeric`), or null (`NaN`). -/
inductive Cell where
  | str (s : String)
  | num (q : ℚ)
  | null
deriving DecidableEq, Repr

/-- `.astype(str)` on a cell.  In the dashboards the credential columns always
hold strings (every cell of `ws.get_all_values()` is a string and `fillna('')`
leaves them strings), so only the `str` case is ever exercised by the claims;
`null` renders as pandas renders `NaN`. -/
def pyStr : Cell → String
  | .str s => s
  | .num q => toString q
  | .null => "nan"

/-- The pandas `.str` accessor: applies `f` to string cells, turns anything
else into `NaN`. -/
def strMap (f : String → String) : Cell → Cell
  | .str s => .str (f s)
  | _ => .null

/-- A pandas DataFrame: an ordered column-name list and rows of cells
(row `r` pairs positionally with `cols`). -/
structure Relation where
  cols : List String
  rows : List (List Cell)
deriving DecidableEq, Repr

/-- `df.empty`: true when either axis has length 0. -/
def Relation.isEmpty (r : Relation) : Bool := r.rows.isEmpty || r.cols.isEmpty

/-- Value of column `c` in a row (first column of that name, as pandas column
lookup resolves labels). -/
def getCell (cols : List String) (row : List Cell) (c : String) : Cell :=
  match cols.findIdx? (· = c) with
  | some i => row.getD i Cell.null
  | none => Cell.null

/-- `df[name] = df[name].map(f)`: in-place column assignment (the mutation in
`get_teacher_profile` / `get_supaleran_demofit` and the `'Hr'` coercion). -/
def setCol (f : Cell → Cell) (name : String) (r : Relation) : Relation :=
  match r.cols.findIdx? (· = name) with
  | some i => ⟨r.cols, r.rows.map (List.modify f i)⟩
  | none => r

/-! ## fetch_data: header normalization (data.py lines 35-39) -/

/-- Header step 1: `pd.Series(data[0]).fillna('').str.strip()` then
`headers.where(headers != '', other='Unnamed')`. -/
def normHeader (s : String) : String :=
  if pyStrip s = "" then "Unnamed" else pyStrip s

/-- The suffix appended by
`headers.groupby(headers).cumcount().astype(str).replace('0', '')`:
the stringified running occurrence count, with count 0 rendered empty. -/
def sfx (c : Nat) : String := if c = 0 then "" else Nat.repr c

/-- `headers + headers.groupby(headers).cumcount().astype(str).replace('0','')`:
each header gets the count of its previous occurrences appended (`seen` holds
the already-processed headers). -/
def dedupAux (seen : List String) : List String → List String
  | [] => []
  | h :: t => (h ++ sfx (seen.count h)) :: dedupAux (h :: seen) t

/-- Full header normalization of `fetch_data`, including the final
`df.columns = df.columns.str.strip()`. -/
def fetchHeaders (hdr : List String) : List String :=
  (dedupAux [] (hdr.map normHeader)).map pyStrip

/-! ## fetch_data: cell pipeline (data.py lines 38-44) -/

/-- Decimal digit-string value. -/
def digitsVal (l : List Char) : Nat := l.foldl (fun a c => 10 * a + (c.toNat - 48)) 0

/-- Unsigned decimal parse: digits, optionally a single `'.'` with digit
fraction (`"3"`, `"2.5"`, `"3."`, `".5"`). -/
def parseUnsigned (l : List Char) : Option ℚ :=
  let ip := l.takeWhile (· ≠ '.')
  match l.dropWhile (· ≠ '.') with
  | [] =>
    if !ip.isEmpty && ip.all Char.isDigit then some (mkRat (digitsVal ip) 1) else none
  | _ :: frac =>
    if (ip.all Char.isDigit && frac.all Char.isDigit) && (!ip.isEmpty || !frac.isEmpty) then
      some (mkRat (digitsVal ip * 10 ^ frac.length + digitsVal frac) (10 ^ frac.length))
    else none

/-- `pd.to_numeric(s, errors='coerce')` on a string cell: parse a (possibly
signed, whitespace-padded) decimal, `none` (NaN) when unparseable. -/
def parseNum (s : String) : Option ℚ :=
  match stripChars s.data with
  | '-' :: t => (parseUnsigned t).map (fun q => -q)
  | '+' :: t => parseUnsigned t
  | l => parseUnsigned l

/-- `df.replace('', np.nan)` on one cell. -/
def replaceEmpty (c : Cell) : Cell := if c = .str "" then .null else c

/-- `df.fillna('')` on one cell. -/
def fillEmpty (c : Cell) : Cell := if c = .null then .str "" else c

/-- `pd.to_numeric(col, errors='coerce').fillna(0)` on one cell. -/
def coerceNum : Cell → Cell
  | .str s => .num ((parseNum s).getD 0)
  | .num q => .num q
  | .null => .num 0

/-- `pd.DataFrame(data[1:], columns=headers)` row construction: cells pair
positionally with the `n` headers; missing trailing cells are `NaN`. -/
def buildCells (n : Nat) (r : List String) : List Cell :=
  (List.range n).map (fun j => match r[j]? with | some s => Cell.str s | none => Cell.null)

/-- `fetch_data` after the worksheet returns `data` (a header row followed by
data rows); data.py lines 32-46.  Empty payload gives the empty DataFrame. -/
def fetch_data : List (List String) → Relation
  | [] => ⟨[], []⟩
  | hdr :: rows =>
    let cols := fetchHeaders hdr
    let rows2 := rows.map (fun r => ((buildCells cols.length r).map replaceEmpty).map fillEmpty)
    let rel : Relation := ⟨cols, rows2⟩
    if rel.cols.contains "Hr" then setCol coerceNum "Hr" rel else rel

/-! ## merge_teacher_student (data.py lines 52-64) -/

/-- `main_df.rename(columns={'Student id': 'Student ID'})`. -/
def mainColRename (c : String) : String := if c = "Student id" then "Student ID" else c

/-- `student_df.rename(columns={'Student id': 'Student ID', 'EM': 'EM',
'EM Phone': 'Phone Number'})`. -/
def studentColRename (c : String) : String :=
  if c = "Student id" then "Student ID" else if c = "EM Phone" then "Phone Number" else c

/-- `df.rename(columns=...)`: a new relation, rows shared. -/
def renameCols (f : String → String) (r : Relation) : Relation := ⟨r.cols.map f, r.rows⟩

/-- `df[names]` column projection; `none` models the `KeyError` raised when a
requested column is absent. -/
def projectCols (names : List String) (r : Relation) : Option Relation :=
  if names.all (fun n => r.cols.contains n) then
    some ⟨names, r.rows.map (fun row => names.map (getCell r.cols row))⟩
  else none

/-- `left.merge(right, on=key, how='left')`: for each left row, one output row
per right row with an equal key (pandas multiplies rows on duplicate keys), or
a single null-extended row when no right row matches.  Overlap suffixing of
non-key columns (`_x`/`_y`) is not modelled; no claim depends on it. -/
def leftMerge (left right : Relation) (key : String) : Relation :=
  let rcols := right.cols.filter (· ≠ key)
  ⟨left.cols ++ rcols,
    left.rows.flatMap (fun lrow =>
      match right.rows.filter (fun rrow => getCell right.cols rrow key == getCell left.cols lrow key) with
      | [] => [lrow ++ rcols.map (fun _ => Cell.null)]
      | ms => ms.map (fun rrow => lrow ++ rcols.map (fun c => getCell right.cols rrow c)))⟩

/-- The projected lookup `student_df[['Student ID', 'EM', 'Phone Number']]`
after the rename; `none` models the `KeyError` caught by the `except`. -/
def mergeLookup (student : Relation) : Option Relation :=
  projectCols ["Student ID", "EM", "Phone Number"] (renameCols studentColRename student)

/-- `merge_teacher_student` (data.py lines 52-64).  The `except` branch
returns `main_df`, which at that point is the renamed base. -/
def merge_teacher_student (main student : Relation) : Relation :=
  if main.isEmpty || student.isEmpty then ⟨[], []⟩
  else
    let m := renameCols mainColRename main
    match mergeLookup student with
    | none => m
    | some proj => if m.cols.contains "Student ID" then leftMerge m proj "Student ID" else m

/-- Post-states of the two arguments of `merge_teacher_student`: lines 57-58
rebind the local names via the non-mutating `DataFrame.rename`, so the
caller's relations are unchanged. -/
def merge_teacher_student_post (main student : Relation) : Relation × Relation := (main, student)

/-! ## Teacher login (data.py main, lines 124-161) -/

/-- Outcome of the teacher login block.  `success` carries the matched subset
stored into `st.session_state.filtered_data`. -/
inductive TeacherOutcome where
  | noData
  | invalidCred
  | success (filtered : Relation)
deriving DecidableEq, Repr

/-- The `st.error` message shown for each failing outcome (lines 132, 147). -/
def teacherMsg : TeacherOutcome → Option String
  | .noData => some "Class data not available."
  | .invalidCred => some "Invalid credentials or no data for this month."
  | .success _ => none

/-- Column normalization of the login block (lines 136-138):
`df['Teachers ID'].str.strip().str.lower()`, `df['Password'].astype(str).str.strip()`,
`df['MM'].astype(str).str.zfill(2)`. -/
def normTeacherRel (df : Relation) : Relation :=
  setCol (fun c => .str (zfill 2 (pyStr c))) "MM"
    (setCol (fun c => .str (pyStrip (pyStr c))) "Password"
      (setCol (strMap (fun s => pyLower (pyStrip s))) "Teachers ID" df))

/-- The boolean-mask filter of lines 140-144 over the normalized copy;
`teacher_id` is the input after `.strip().lower()` (line 125) and `month_str`
is `f"{month:02}"` (line 128). -/
def teacherFilter (classDf : Relation) (tidIn tpass : String) (month : Nat) : Relation :=
  let tid := pyLower (pyStrip tidIn)
  let mstr := zfill 2 (Nat.repr month)
  let df := normTeacherRel classDf
  ⟨df.cols, df.rows.filter (fun r =>
    getCell df.cols r "Teachers ID" == Cell.str tid &&
    getCell df.cols r "Password" == Cell.str tpass &&
    getCell df.cols r "MM" == Cell.str mstr)⟩

/-- The teacher login block (lines 130-148): empty data, empty filter
(one combined message for unknown ID and wrong password/month), or success. -/
def teacherLogin (classDf : Relation) (tidIn tpass : String) (month : Nat) : TeacherOutcome :=
  if classDf.isEmpty then .noData
  else
    let f := teacherFilter classDf tidIn tpass month
    if f.rows.isEmpty then .invalidCred else .success f

/-- Post-state of `class_df` after the teacher login block: line 135 copies
(`df = class_df.copy()`) before the in-place column assignments, so the
argument is unchanged. -/
def teacherLogin_post (classDf : Relation) : Relation := classDf

/-! ## Student login (main.py main, lines 87-123) -/

/-- Outcome of the student login block; `success` carries the values written
to `st.session_state` (`student_id` and the first matched row). -/
inductive StudentOutcome where
  | noData
  | tooShort
  | idNotFound
  | nameMismatch
  | success (sid : String) (row : List Cell)
deriving DecidableEq, Repr

/-- The message shown for each failing outcome (lines 90, 103, 109, 116). -/
def studentMsg : StudentOutcome → Option String
  | .noData => some "❌ Student data not loaded."
  | .tooShort => some "⚠️ Please enter at least 4 letters from your name."
  | .idNotFound => some "❌ Student ID not found"
  | .nameMismatch => some "❌ Name mismatch. Enter correct 4 letters from your name."
  | .success _ _ => none

/-- Column normalization of main.py lines 96-97:
`astype(str).str.lower().str.strip()` on `'Student ID'` and `'Student'`. -/
def normStudentRel (df : Relation) : Relation :=
  setCol (fun c => .str (pyStrip (pyLower (pyStr c)))) "Student"
    (setCol (fun c => .str (pyStrip (pyLower (pyStr c)))) "Student ID" df)

/-- String content of a cell (the normalized `'Student'` cell is always a
string). -/
def strOf : Cell → String
  | .str s => s
  | _ => ""

/-- The student login block (main.py lines 87-123): empty-data check, column
normalization, fragment-length validation, ID scan (`match.iloc[0]`), name
containment check. -/
def studentLogin (classDf : Relation) (sidIn snameIn : String) : StudentOutcome :=
  if classDf.isEmpty then .noData
  else
    let df := normStudentRel classDf
    let sid := pyStrip (pyLower sidIn)
    let sname := pyStrip (pyLower snameIn)
    if sname.length < 4 then .tooShort
    else
      match df.rows.filter (fun r => getCell df.cols r "Student ID" == Cell.str sid) with
      | [] => .idNotFound
      | row :: _ =>
        if pyIn sname (strOf (getCell df.cols row "Student")) then .success sid row
        else .nameMismatch

/-- Post-state of `class_df` after the student login block: line 93 copies
(`df = class_df.copy()`) before the in-place column assignments. -/
def studentLogin_post (classDf : Relation) : Relation := classDf

/-! ## Profile lookups (data.py lines 76-93) -/

/-- `get_teacher_profile` (lines 76-79).  Line 77 assigns
`profile_df['Teacher id'] = profile_df['Teacher id'].str.strip().str.lower()`,
mutating the argument; the second component is the argument's post-state. -/
def get_teacher_profile (teacher_id : String) (profile_df : Relation) : Relation × Relation :=
  let pdf := setCol (strMap (fun s => pyLower (pyStrip s))) "Teacher id" profile_df
  (⟨pdf.cols, pdf.rows.filter (fun r => getCell pdf.cols r "Teacher id" == Cell.str teacher_id)⟩,
   pdf)

/-- `get_supaleran_demofit` (lines 80-93).  Line 82 assigns
`supa_demofit_df['Teacher id'] = ....astype(str).str.strip().str.lower()`,
mutating the argument; the second component is the argument's post-state. -/
def get_supaleran_demofit (teacher_id : String) (supa_demofit_df : Relation) :
    (Option Cell × Option Cell) × Relation :=
  let sdf := setCol (fun c => .str (pyLower (pyStrip (pyStr c)))) "Teacher id" supa_demofit_df
  let tid := pyLower (pyStrip teacher_id)
  match sdf.rows.filter (fun r => getCell sdf.cols r "Teacher id" == Cell.str tid) with
  | [] => ((none, none), sdf)
  | r :: _ =>
    ((if sdf.cols.contains "SupalearnID" then some (getCell sdf.cols r "SupalearnID") else none,
      if sdf.cols.contains "DemoFit" then some (getCell sdf.cols r "DemoFit") else none), sdf)

/-! ## Auxiliary definitions used by the claim statements -/

/-- Every base-row key matches at most one lookup row of the projected lookup
(the regime in which a pandas left merge preserves the base row count). -/
def atMostOneMatch (main student : Relation) : Bool :=
  match mergeLookup student with
  | none => true
  | some proj =>
    (renameCols mainColRename main).rows.all (fun lrow =>
      (proj.rows.filter (fun rrow =>
        getCell proj.cols rrow "Student ID" ==
          getCell (renameCols mainColRename main).cols lrow "Student ID")).length ≤ 1)

/-- Structural decimal rendering of a natural number (most significant digit
first); proved below to agree with `Nat.repr`. -/
def toD (n : Nat) : List Char :=
  if _h : n < 10 then [Nat.digitChar n]
  else toD (n / 10) ++ [Nat.digitChar (n % 10)]
decreasing_by exact Nat.div_lt_self (by omega) (by omega)

/-- Sample class-log relation with one teacher row (credentials `t1`/`9999`,
month `04`). -/
def exClass : Relation :=
  ⟨["Teachers ID", "Password", "MM", "Teachers Name"],
   [[.str "t1", .str "9999", .str "04", .str "Jane Doe"]]⟩

/-- Sample class-log relation with two rows sharing identical credentials but
different secondary data. -/
def exClass2 : Relation :=
  ⟨["Teachers ID", "Password", "MM", "Teachers Name"],
   [[.str "t1", .str "9999", .str "04", .str "Jane"],
    [.str "t1", .str "9999", .str "04", .str "Janet"]]⟩

/-- Sample student class-details relation. -/
def exStudentClass : Relation :=
  ⟨["Student ID", "Student"], [[.str "s1", .str "alice smith"]]⟩

/-- One-row base relation for the merge claims. -/
def exMain : Relation := ⟨["Student ID", "X"], [[.str "s1", .str "x"]]⟩

/-- Lookup relation holding two rows with the same `'Student ID'` key. -/
def exLookupDup : Relation :=
  ⟨["Student ID", "EM", "EM Phone"],
   [[.str "s1", .str "em1", .str "p1"], [.str "s1", .str "em2", .str "p2"]]⟩

/-- Lookup relation with a single row per key. -/
def exLookupOne : Relation :=
  ⟨["Student ID", "EM", "EM Phone"], [[.str "s1", .str "em1", .str "p1"]]⟩

/-- Base relation whose key column carries the raw `'Student id'` spelling. -/
def exMainRaw : Relation := ⟨["Student id", "X"], [[.str "s1", .str "x"]]⟩

/-- Lookup relation missing the `'EM Phone'`/`'Phone Number'` projection
column, so the join step raises and is caught. -/
def exLookupNoPhone : Relation := ⟨["Student ID", "EM"], [[.str "s1", .str "em1"]]⟩

/-- Profile relation whose `'Teacher id'` cell is not yet normalized. -/
def exProfile : Relation := ⟨["Teacher id", "Phone number"], [[.str " T1 ", .str "123"]]⟩

/-- Supalearn/DemoFit relation whose `'Teacher id'` cell is not yet
normalized. -/
def exSupa : Relation := ⟨["Teacher id", "SupalearnID"], [[.str " T1 ", .str "SL9"]]⟩

/-! ## Claim C6 and C9: concrete normalization checks -/

/-- C6: for the header row `["A", "A", "", "B"]` the header normalization of
`fetch_data` produces exactly `["A", "A1", "Unnamed", "B"]`: the blank header
becomes `"Unnamed"`, the first occurrence of the duplicate keeps the bare
name, and the later occurrence gets the numeric suffix. -/
theorem c6_fetchHeaders_example :
    fetchHeaders ["A", "A", "", "B"] = ["A", "A1", "Unnamed", "B"] := by decide

/-- C9: a `'Hr'` column with cells `["3", "", "x", "2.5"]` coerces to the
numbers `[3, 0, 0, 2.5]` (parseable cells keep their numeric value, empty and
non-numeric cells become zero). -/
theorem c9_hr_coercion_example :
    (fetch_data [["Hr"], ["3"], [""], ["x"], ["2.5"]]).rows =
      [[Cell.num 3], [Cell.num 0], [Cell.num 0], [Cell.num (mkRat 5 2)]] ∧
    mkRat 5 2 = 5 / 2 :=
  ⟨by decide, by norm_num [mkRat]⟩

/-! ## Counterexamples to the claims refuted by the code -/

/-- C1 counterexample: with a one-row base and a lookup holding two rows with
the matching key, the left join returns two rows, not one — the output row
count does not always equal the base row count. -/
theorem c1_counterexample :
    (merge_teacher_student exMain exLookupDup).rows.length = 2 ∧
      exMain.rows.length = 1 ∧
      (merge_teacher_student exMain ⟨["Student ID", "EM", "EM Phone"], []⟩).rows.length = 0 := by
  decide

/-- C2 counterexample: an empty-string cell outside the `'Hr'` column is
stored as the empty string, not as null — the `replace('', nan)` step is
immediately undone by `fillna('')`. -/
theorem c2_counterexample :
    (fetch_data [["A"], [""]]).rows = [[Cell.str ""]] ∧ Cell.str "" ≠ Cell.null := by decide

/-- C3 counterexample: for the raw header row `["A", "A", "A1"]` the
normalization produces `["A", "A1", "A1"]`, whose names are not pairwise
unique (the suffixed duplicate collides with the pre-existing `"A1"`). -/
theorem c3_counterexample :
    fetchHeaders ["A", "A", "A1"] = ["A", "A1", "A1"] ∧
      ¬ (fetchHeaders ["A", "A", "A1"]).Nodup := by decide

/-- C4 counterexample: `get_teacher_profile` and `get_supaleran_demofit`
mutate the relation passed in — after the call the argument's `'Teacher id'`
column has been normalized in place, so the input is not unchanged. -/
theorem c4_counterexample :
    (get_teacher_profile "t1" exProfile).2 ≠ exProfile ∧
      (get_supaleran_demofit "t1" exSupa).2 ≠ exSupa := by decide

/-- C5 counterexample: against a non-empty relation, the teacher matcher
reports the unknown-ID failure (`"t2"` occurs in no row) and the
wrong-secret failure (`"t1"` exists but the password differs) through the
same outcome and the same message, so the two failure kinds are not reported
distinctly. -/
theorem c5_counterexample :
    exClass.isEmpty = false ∧
    (∀ r ∈ (normTeacherRel exClass).rows,
      getCell (normTeacherRel exClass).cols r "Teachers ID" ≠ Cell.str "t2") ∧
    (∃ r ∈ (normTeacherRel exClass).rows,
      getCell (normTeacherRel exClass).cols r "Teachers ID" = Cell.str "t1" ∧
      getCell (normTeacherRel exClass).cols r "Password" ≠ Cell.str "0000") ∧
    teacherLogin exClass "t2" "9999" 4 = TeacherOutcome.invalidCred ∧
    teacherLogin exClass "t1" "0000" 4 = TeacherOutcome.invalidCred := by decide

/-- C10 counterexample: when the projection column is absent from the lookup,
`merge_teacher_student` does not return the base relation unchanged — it
returns the base with its `'Student id'` column renamed to `'Student ID'`. -/
theorem c10_counterexample :
    mergeLookup exLookupNoPhone = none ∧
      merge_teacher_student exMainRaw exLookupNoPhone ≠ exMainRaw ∧
      merge_teacher_student exMainRaw exLookupNoPhone = renameCols mainColRename exMainRaw := by
  decide

/-! ## Helper lemmas -/

theorem list_sum_map_ones {α : Type} (l : List α) (g : α → Nat)
    (h : ∀ x ∈ l, g x = 1) : (l.map g).sum = l.length := by
  induction l with
  | nil => rfl
  | cons a t ih =>
    simp only [List.map_cons, List.sum_cons, List.length_cons,
      h a (List.mem_cons_self a t), ih (fun x hx => h x (List.mem_cons_of_mem a hx))]
    omega

theorem leftMerge_length (left right : Relation) (key : String)
    (h : ∀ lrow ∈ left.rows,
      (right.rows.filter (fun rrow =>
        getCell right.cols rrow key == getCell left.cols lrow key)).length ≤ 1) :
    (leftMerge left right key).rows.length = left.rows.length := by
  unfold leftMerge
  dsimp only
  rw [List.length_flatMap]
  apply list_sum_map_ones
  intro lrow hl
  simp only [Function.comp_apply]
  split
  · simp
  · rename_i heq
    have hb := h lrow hl
    have hpos : 0 < (right.rows.filter (fun rrow =>
        getCell right.cols rrow key == getCell left.cols lrow key)).length :=
      List.length_pos.mpr heq
    simp only [List.length_map]
    omega

theorem setCol_cols (f : Cell → Cell) (name : String) (r : Relation) :
    (setCol f name r).cols = r.cols := by
  unfold setCol; split <;> rfl

theorem setCol_rows_length (f : Cell → Cell) (name : String) (r : Relation) :
    (setCol f name r).rows.length = r.rows.length := by
  unfold setCol
  split
  · exact List.length_map _ _
  · rfl

theorem setCol_cell_ne (f : Cell → Cell) (name : String) (r : Relation) (i j : Nat)
    (h : r.cols.findIdx? (· = name) ≠ some j) :
    (setCol f name r).rows[i]?.bind (fun row => row[j]?) =
      r.rows[i]?.bind (fun row => row[j]?) := by
  unfold setCol
  split
  · rename_i k hk
    have hkj : k ≠ j := fun e => h (e ▸ hk)
    simp only [List.getElem?_map]
    cases hr : r.rows[i]? with
    | none => rfl
    | some row =>
      simp [List.getElem?_modify, hkj]
  · rfl

/-! ## Claim theorems: joins, frame conditions, logins -/

/-- C1 (amended): the left join of `merge_teacher_student` preserves the base
row count whenever base and lookup are non-empty and no base key matches more
than one lookup row; with duplicate matching keys pandas repeats the base row
once per match, and an empty base or lookup yields an empty relation. -/
theorem c1_amended (main student : Relation)
    (h1 : main.isEmpty = false) (h2 : student.isEmpty = false)
    (h3 : atMostOneMatch main student = true) :
    (merge_teacher_student main student).rows.length = main.rows.length := by
  unfold merge_teacher_student
  simp only [h1, h2, Bool.or_self, Bool.false_eq_true, if_false]
  cases hm : mergeLookup student with
  | none => rfl
  | some proj =>
    unfold atMostOneMatch at h3
    rw [hm] at h3
    simp only [List.all_eq_true, decide_eq_true_eq] at h3
    by_cases hc : (renameCols mainColRename main).cols.contains "Student ID"
    · simp only [hc, if_true]
      exact leftMerge_length _ _ _ fun lrow hl => h3 lrow hl
    · simp only [hc, Bool.false_eq_true, if_false]
      rfl

/-- C1 witness: a concrete non-empty base and one-match-per-key lookup where
the merged row count equals the base row count. -/
theorem c1_witness :
    (merge_teacher_student exMain exLookupOne).rows.length = exMain.rows.length :=
  c1_amended exMain exLookupOne (by decide) (by decide) (by decide)

/-- C10 (amended): when the join step inside `merge_teacher_student` fails
(projection columns absent from the lookup, or the key column absent from the
renamed base), the function returns the base relation with only the
`'Student id'` to `'Student ID'` column rename applied — same rows, non-empty,
no exception and no empty result. -/
theorem c10_amended (main student : Relation)
    (h1 : main.isEmpty = false) (h2 : student.isEmpty = false)
    (h3 : mergeLookup student = none ∨
      (renameCols mainColRename main).cols.contains "Student ID" = false) :
    merge_teacher_student main student = renameCols mainColRename main ∧
    (merge_teacher_student main student).rows = main.rows ∧
    (merge_teacher_student main student).isEmpty = false := by
  have hmain : merge_teacher_student main student = renameCols mainColRename main := by
    unfold merge_teacher_student
    simp only [h1, h2, Bool.or_self, Bool.false_eq_true, if_false]
    rcases h3 with h3 | h3
    · rw [h3]
    · cases hm : mergeLookup student with
      | none => rfl
      | some proj => simp only [h3, Bool.false_eq_true, if_false]
  refine ⟨hmain, by rw [hmain]; rfl, ?_⟩
  rw [hmain]
  rcases main with ⟨cols, rows⟩
  cases cols <;> cases rows <;> simp_all [Relation.isEmpty, renameCols]

/-- C10 witness: the failure branch at a concrete base/lookup pair returns
the renamed base. -/
theorem c10_witness :
    merge_teacher_student exMainRaw exLookupNoPhone = renameCols mainColRename exMainRaw :=
  (c10_amended exMainRaw exLookupNoPhone (by decide) (by decide) (Or.inl (by decide))).1

/-- C4 (amended): identity matching and joining leave their input relations
unchanged (`class_df` is copied before normalization, `merge_teacher_student`
only rebinds via non-mutating renames), but the profile lookup and the
auxiliary-field lookup mutate their input in place: the post-state is the
input with its `'Teacher id'` column normalized, keeping the column list, the
row count and every cell outside that column unchanged. -/
theorem c4_amended (main student classDf : Relation) (tid : String) (pdf sdf : Relation) :
    merge_teacher_student_post main student = (main, student) ∧
    teacherLogin_post classDf = classDf ∧
    studentLogin_post classDf = classDf ∧
    (get_teacher_profile tid pdf).2 =
      setCol (strMap (fun s => pyLower (pyStrip s))) "Teacher id" pdf ∧
    (get_supaleran_demofit tid sdf).2 =
      setCol (fun c => .str (pyLower (pyStrip (pyStr c)))) "Teacher id" sdf ∧
    (get_teacher_profile tid pdf).2.cols = pdf.cols ∧
    (get_teacher_profile tid pdf).2.rows.length = pdf.rows.length ∧
    (∀ i j : Nat, pdf.cols.findIdx? (· = "Teacher id") ≠ some j →
      (get_teacher_profile tid pdf).2.rows[i]?.bind (fun row => row[j]?) =
        pdf.rows[i]?.bind (fun row => row[j]?)) := by
  refine ⟨rfl, rfl, rfl, rfl, ?_, ?_, ?_, ?_⟩
  · unfold get_supaleran_demofit
    dsimp only
    split <;> rfl
  · exact setCol_cols _ _ _
  · exact setCol_rows_length _ _ _
  · exact fun i j hj => setCol_cell_ne _ _ _ i j hj

/-- C4 witness: at a concrete profile relation, a cell outside the
`'Teacher id'` column is unchanged by the profile lookup's in-place
normalization. -/
theorem c4_witness :
    (get_teacher_profile "t1" exProfile).2.rows[0]?.bind (fun row => row[1]?) =
      exProfile.rows[0]?.bind (fun row => row[1]?) :=
  (c4_amended exProfile exProfile exProfile "t1" exProfile exProfile).2.2.2.2.2.2.2
    0 1 (by decide)

/-- C7: a student login whose normalized name fragment is shorter than 4
characters is rejected with the validation failure, never succeeds (so no
session state is written), and the outcome does not depend on the relation's
rows — the rejection happens before any row is scanned for an ID match, even
when a row matching the supplied ID and name exists. -/
theorem c7_reject_short_fragment (classDf : Relation) (sidIn snameIn : String)
    (h1 : classDf.isEmpty = false)
    (h2 : (pyStrip (pyLower snameIn)).length < 4) :
    studentLogin classDf sidIn snameIn = StudentOutcome.tooShort ∧
    (∀ sid row, studentLogin classDf sidIn snameIn ≠ StudentOutcome.success sid row) ∧
    (∀ df' : Relation, df'.isEmpty = false →
      studentLogin df' sidIn snameIn = studentLogin classDf sidIn snameIn) := by
  have key : ∀ df : Relation, df.isEmpty = false →
      studentLogin df sidIn snameIn = StudentOutcome.tooShort := by
    intro df hdf
    unfold studentLogin
    simp [hdf, h2]
  refine ⟨key classDf h1, ?_, fun df' h' => (key df' h').trans (key classDf h1).symm⟩
  intro sid row hcon
  rw [key classDf h1] at hcon
  exact StudentOutcome.noConfusion hcon

/-- C7 witness: the fragment `"ali"` (length 3) is rejected even though
`exStudentClass` contains a row matching both the ID `"s1"` and the name. -/
theorem c7_witness :
    exStudentClass.isEmpty = false ∧ (pyStrip (pyLower "ali")).length < 4 ∧
    studentLogin exStudentClass "s1" "ali" = StudentOutcome.tooShort :=
  ⟨by decide, by decide, (c7_reject_short_fragment exStudentClass "s1" "ali" (by decide) (by decide)).1⟩

/-- C8: the teacher matcher's filtered subset contains exactly the rows of the
normalized relation whose `'Teachers ID'`, `'Password'` and `'MM'` values
equal the normalized credentials — in particular all rows sharing identical
credentials are returned — and a non-empty filter is exactly what the login
stores as success. -/
theorem c8_full_subset (classDf : Relation) (tidIn tpass : String) (month : Nat) :
    (∀ r, r ∈ (teacherFilter classDf tidIn tpass month).rows ↔
      r ∈ (normTeacherRel classDf).rows ∧
      getCell (normTeacherRel classDf).cols r "Teachers ID" =
        Cell.str (pyLower (pyStrip tidIn)) ∧
      getCell (normTeacherRel classDf).cols r "Password" = Cell.str tpass ∧
      getCell (normTeacherRel classDf).cols r "MM" =
        Cell.str (zfill 2 (Nat.repr month))) ∧
    (classDf.isEmpty = false → (teacherFilter classDf tidIn tpass month).rows ≠ [] →
      teacherLogin classDf tidIn tpass month =
        TeacherOutcome.success (teacherFilter classDf tidIn tpass month)) := by
  constructor
  · intro r
    unfold teacherFilter
    dsimp only
    rw [List.mem_filter]
    simp [and_assoc]
  · intro h1 h2
    unfold teacherLogin
    simp [h1, List.isEmpty_iff, h2]

/-- C8 witness: two rows with identical credentials but different secondary
data are both returned by the teacher matcher. -/
theorem c8_witness :
    teacherLogin exClass2 "T1 " "9999" 4 =
      TeacherOutcome.success (teacherFilter exClass2 "T1 " "9999" 4) ∧
    (teacherFilter exClass2 "T1 " "9999" 4).rows.length = 2 :=
  ⟨(c8_full_subset exClass2 "T1 " "9999" 4).2 (by decide) (by decide), by decide⟩

/-- C5 (amended): the student matcher reports the unknown-ID failure and the
name-mismatch failure through distinct outcomes with distinct messages; the
teacher matcher (see the counterexample) conflates its two failure kinds into
one outcome and message. -/
theorem c5_amended (classDf : Relation) (sidIn snameIn : String)
    (h1 : classDf.isEmpty = false) (h2 : ¬ (pyStrip (pyLower snameIn)).length < 4) :
    ((normStudentRel classDf).rows.filter (fun r =>
        getCell (normStudentRel classDf).cols r "Student ID" ==
          Cell.str (pyStrip (pyLower sidIn))) = [] →
      studentLogin classDf sidIn snameIn = StudentOutcome.idNotFound) ∧
    (∀ row rest, (normStudentRel classDf).rows.filter (fun r =>
        getCell (normStudentRel classDf).cols r "Student ID" ==
          Cell.str (pyStrip (pyLower sidIn))) = row :: rest →
      pyIn (pyStrip (pyLower snameIn))
          (strOf (getCell (normStudentRel classDf).cols row "Student")) = false →
      studentLogin classDf sidIn snameIn = StudentOutcome.nameMismatch) ∧
    StudentOutcome.idNotFound ≠ StudentOutcome.nameMismatch ∧
    studentMsg StudentOutcome.idNotFound ≠ studentMsg StudentOutcome.nameMismatch := by
  refine ⟨?_, ?_, by decide, by decide⟩
  · intro hf
    unfold studentLogin
    simp [h1, h2, hf]
  · intro row rest hf hn
    unfold studentLogin
    simp [h1, h2, hf, hn]

/-- C5 witness: a concrete login against a non-empty relation with an unknown
ID yields the distinct not-found outcome. -/
theorem c5_witness :
    studentLogin exStudentClass "s2" "lice" = StudentOutcome.idNotFound :=
  (c5_amended exStudentClass "s2" "lice" (by decide) (by decide)).1 (by decide)

/-! ## Claim C2: cell normalization of fetch_data -/

theorem contains_eq_isSome_findIdx (l : List String) (a : String) :
    l.contains a = (l.findIdx? (· = a)).isSome := by
  rw [List.findIdx?_isSome]
  induction l with
  | nil => rfl
  | cons x t ih =>
    simp only [List.contains_cons, List.any_cons, ih]
    congr 1
    rw [Bool.eq_iff_iff]
    constructor
    · intro hh; exact decide_eq_true (eq_of_beq hh).symm
    · intro hh; exact beq_iff_eq.mpr (of_decide_eq_true hh).symm

theorem fetchRow_cell (n : Nat) (r : List String) (j : Nat) :
    (((buildCells n r).map replaceEmpty).map fillEmpty)[j]? =
      if j < n then some (Cell.str ((r[j]?).getD "")) else none := by
  by_cases h : j < n
  · simp only [buildCells, List.getElem?_map, List.getElem?_range h, if_pos h]
    cases hr : r[j]? with
    | none => simp [hr, replaceEmpty, fillEmpty]
    | some s =>
      by_cases hs : s = "" <;> simp [hr, replaceEmpty, fillEmpty, hs]
  · have hn : (List.range n).length ≤ j := by simpa using Nat.le_of_not_lt h
    simp only [buildCells, List.getElem?_map, List.getElem?_eq_none hn, if_neg h,
      Option.map_none']

/-- C2 (amended): in the relation built by `fetch_data`, an empty-string cell
is first replaced by null and then immediately filled back, so every cell
outside the `'Hr'` column is stored as its original string (never null, the
empty string staying empty), while every cell in the `'Hr'` column is stored
as its parsed number, with empty or non-numeric cells coerced to zero. -/
theorem c2_amended (hdr : List String) (rows : List (List String)) (i j : Nat)
    (row : List Cell) (c : Cell)
    (hrow : (fetch_data (hdr :: rows)).rows[i]? = some row)
    (hc : row[j]? = some c) :
    c ≠ Cell.null ∧
    ((fetch_data (hdr :: rows)).cols.findIdx? (· = "Hr") = some j →
      c = Cell.num ((parseNum (((rows[i]?).getD [])[j]?.getD "")).getD 0)) ∧
    ((fetch_data (hdr :: rows)).cols.findIdx? (· = "Hr") ≠ some j →
      c = Cell.str (((rows[i]?).getD [])[j]?.getD "")) := by
  have hcols : (fetch_data (hdr :: rows)).cols = fetchHeaders hdr := by
    unfold fetch_data
    dsimp only
    split
    · exact setCol_cols _ _ _
    · rfl
  rw [hcols]
  unfold fetch_data at hrow
  dsimp only at hrow
  by_cases hHr : (fetchHeaders hdr).contains "Hr"
  · rw [if_pos hHr] at hrow
    have hsome : ((fetchHeaders hdr).findIdx? (· = "Hr")).isSome := by
      rw [← contains_eq_isSome_findIdx]; exact hHr
    obtain ⟨k, hk⟩ := Option.isSome_iff_exists.mp hsome
    unfold setCol at hrow
    rw [hk] at hrow
    dsimp only at hrow
    rw [List.getElem?_map, List.getElem?_map] at hrow
    cases hri : rows[i]? with
    | none => rw [hri] at hrow; simp at hrow
    | some r0 =>
      rw [hri] at hrow
      simp only [Option.map_some'] at hrow
      have hrow' : row = List.modify coerceNum k
          (((buildCells (fetchHeaders hdr).length r0).map replaceEmpty).map fillEmpty) :=
        (Option.some_injective _ hrow).symm
      rw [hrow'] at hc
      rw [List.getElem?_modify] at hc
      rw [fetchRow_cell] at hc
      by_cases hj : j < (fetchHeaders hdr).length
      · rw [if_pos hj] at hc
        simp only [Option.map_eq_map, Option.map_some'] at hc
        by_cases hkj : k = j
        · subst hkj
          simp only [if_pos rfl] at hc
          have hcv : c = coerceNum (Cell.str ((r0[k]?).getD "")) :=
            (Option.some_injective _ hc).symm
          refine ⟨?_, ?_, ?_⟩
          · rw [hcv]; intro hx; exact Cell.noConfusion hx
          · intro _; rw [hcv]; rfl
          · intro hne; exact absurd hk hne
        · simp only [if_neg hkj] at hc
          have hcv : c = Cell.str ((r0[j]?).getD "") := (Option.some_injective _ hc).symm
          refine ⟨?_, ?_, ?_⟩
          · rw [hcv]; intro hx; exact Cell.noConfusion hx
          · intro hj'; rw [hk] at hj'; exact absurd (Option.some_injective _ hj') hkj
          · intro _; rw [hcv]; rfl
      · rw [if_neg hj] at hc
        simp at hc
  · rw [if_neg hHr] at hrow
    have hnone : (fetchHeaders hdr).findIdx? (· = "Hr") = none := by
      cases hfi : (fetchHeaders hdr).findIdx? (· = "Hr") with
      | none => rfl
      | some k =>
        have hks : ((fetchHeaders hdr).findIdx? (· = "Hr")).isSome = true := by
          rw [hfi]; rfl
        rw [← contains_eq_isSome_findIdx] at hks
        exact absurd hks hHr
    rw [List.getElem?_map] at hrow
    cases hri : rows[i]? with
    | none => rw [hri] at hrow; simp at hrow
    | some r0 =>
      rw [hri] at hrow
      simp only [Option.map_some'] at hrow
      have hrow' : row =
          ((buildCells (fetchHeaders hdr).length r0).map replaceEmpty).map fillEmpty :=
        (Option.some_injective _ hrow).symm
      rw [hrow', fetchRow_cell] at hc
      by_cases hj : j < (fetchHeaders hdr).length
      · rw [if_pos hj] at hc
        have hcv : c = Cell.str ((r0[j]?).getD "") := (Option.some_injective _ hc).symm
        refine ⟨?_, ?_, ?_⟩
        · rw [hcv]; intro hx; exact Cell.noConfusion hx
        · intro hj'; rw [hnone] at hj'; exact absurd hj' (by simp)
        · intro _; rw [hcv]; rfl
      · rw [if_neg hj] at hc
        simp at hc

/-- C2 witness: at the concrete sheet `[["A", "Hr"], ["", "x"]]`, the empty
cell in column `A` is stored as the empty string (not null) and the
non-numeric `'Hr'` cell is stored as zero. -/
theorem c2_witness :
    (Cell.str "" : Cell) ≠ Cell.null ∧
    Cell.num 0 =
      Cell.num ((parseNum ((([["", "x"]] : List (List String))[0]?.getD [])[1]?.getD "")).getD 0) :=
  ⟨(c2_amended ["A", "Hr"] [["", "x"]] 0 0 [Cell.str "", Cell.num 0] (Cell.str "")
      (by decide) (by decide)).1,
   (c2_amended ["A", "Hr"] [["", "x"]] 0 1 [Cell.str "", Cell.num 0] (Cell.num 0)
      (by decide) (by decide)).2.1 (by decide)⟩

/-! ## Claim C3: groundwork on the decimal rendering used by the suffix -/

theorem toDigitsCore_eq_toD (fuel : Nat) :
    ∀ (n : Nat) (ds : List Char), n < fuel →
      Nat.toDigitsCore 10 fuel n ds = toD n ++ ds := by
  induction fuel with
  | zero => intro n ds h; omega
  | succ f ih =>
    intro n ds _h
    show (if n / 10 = 0 then Nat.digitChar (n % 10) :: ds
          else Nat.toDigitsCore 10 f (n / 10) (Nat.digitChar (n % 10) :: ds)) = toD n ++ ds
    by_cases h10 : n / 10 = 0
    · have hn10 : n < 10 := by omega
      rw [if_pos h10, toD, dif_pos hn10, Nat.mod_eq_of_lt hn10]
      rfl
    · have hge : 10 ≤ n := by omega
      rw [if_neg h10, ih (n / 10) _ (by omega)]
      conv_rhs => rw [toD]
      rw [dif_neg (show ¬ n < 10 by omega), List.append_assoc]
      rfl

theorem repr_data (n : Nat) : (Nat.repr n).data = toD n := by
  show (List.asString (Nat.toDigitsCore 10 (n + 1) n [])).data = toD n
  rw [toDigitsCore_eq_toD (n + 1) n [] (Nat.lt_succ_self n), List.append_nil]
  rfl

theorem toD_ne_nil (n : Nat) : toD n ≠ [] := by
  rw [toD]
  split
  · simp
  · simp

theorem digitChar_isDigit (m : Nat) (h : m < 10) : (Nat.digitChar m).isDigit = true := by
  interval_cases m <;> decide

theorem digitChar_val (m : Nat) (h : m < 10) : (Nat.digitChar m).toNat - 48 = m := by
  interval_cases m <;> decide

theorem toD_all_digits (n : Nat) : ∀ ch ∈ toD n, ch.isDigit = true := by
  induction n using Nat.strong_induction_on with
  | _ n ih =>
    rw [toD]
    split
    · rename_i h
      intro ch hch
      simp only [List.mem_singleton] at hch
      subst hch
      exact digitChar_isDigit n h
    · rename_i h
      intro ch hch
      rw [List.mem_append] at hch
      rcases hch with hch | hch
      · exact ih (n / 10) (Nat.div_lt_self (by omega) (by omega)) ch hch
      · simp only [List.mem_singleton] at hch
        subst hch
        exact digitChar_isDigit _ (Nat.mod_lt _ (by omega))

theorem digitsVal_toD (n : Nat) : digitsVal (toD n) = n := by
  induction n using Nat.strong_induction_on with
  | _ n ih =>
    rw [toD]
    split
    · rename_i h
      show List.foldl _ 0 [Nat.digitChar n] = n
      simp only [List.foldl_cons, List.foldl_nil]
      rw [Nat.mul_zero, Nat.zero_add, digitChar_val n h]
    · rename_i h
      unfold digitsVal
      rw [List.foldl_append]
      have ihv : List.foldl (fun a c => 10 * a + (c.toNat - 48)) 0 (toD (n / 10)) = n / 10 :=
        ih (n / 10) (Nat.div_lt_self (by omega) (by omega))
      rw [ihv]
      simp only [List.foldl_cons, List.foldl_nil]
      rw [digitChar_val _ (Nat.mod_lt _ (by omega))]
      omega

theorem repr_injective (a b : Nat) (h : Nat.repr a = Nat.repr b) : a = b := by
  have hd : toD a = toD b := by
    rw [← repr_data, ← repr_data, h]
  rw [← digitsVal_toD a, ← digitsVal_toD b, hd]

theorem repr_ne_empty (n : Nat) : Nat.repr n ≠ "" := by
  intro h
  have hd : (Nat.repr n).data = [] := by rw [h]
  rw [repr_data] at hd
  exact toD_ne_nil n hd

theorem repr_all_digits (n : Nat) : ∀ ch ∈ (Nat.repr n).data, ch.isDigit = true := by
  rw [repr_data]
  exact toD_all_digits n

theorem sfx_inj (c1 c2 : Nat) (h : sfx c1 = sfx c2) : c1 = c2 := by
  unfold sfx at h
  split at h <;> split at h
  · omega
  · exact absurd h.symm (repr_ne_empty c2)
  · exact absurd h (repr_ne_empty c1)
  · exact repr_injective _ _ h

theorem sfx_digits (c : Nat) : ∀ ch ∈ (sfx c).data, ch.isDigit = true := by
  unfold sfx
  split
  · intro ch hch
    exact absurd hch (List.not_mem_nil ch)
  · exact repr_all_digits c

/-! ## Claim C3: uniqueness of deduplicated headers -/

theorem dedupAux_shape (seen ns : List String) (e : String)
    (he : e ∈ dedupAux seen ns) :
    ∃ b c, b ∈ ns ∧ e = b ++ sfx c ∧ seen.count b ≤ c := by
  induction ns generalizing seen with
  | nil => exact absurd he (List.not_mem_nil e)
  | cons h t ih =>
    rw [dedupAux] at he
    rcases List.mem_cons.mp he with he | he
    · exact ⟨h, seen.count h, List.mem_cons_self _ _, he, le_refl _⟩
    · obtain ⟨b, c, hb, hec, hcnt⟩ := ih (h :: seen) he
      refine ⟨b, c, List.mem_cons_of_mem _ hb, hec, le_trans ?_ hcnt⟩
      rw [List.count_cons]
      omega

theorem dedupAux_nodup (M : List String)
    (H : ∀ a ∈ M, ∀ b ∈ M, ∀ t : String, t ≠ "" →
      (∀ ch ∈ t.data, ch.isDigit = true) → a ≠ b ++ t) :
    ∀ ns seen, (∀ x ∈ ns, x ∈ M) → (dedupAux seen ns).Nodup := by
  intro ns
  induction ns with
  | nil => intro seen _; exact List.nodup_nil
  | cons h t ih =>
    intro seen hns
    rw [dedupAux, List.nodup_cons]
    refine ⟨?_, ih (h :: seen) (fun x hx => hns x (List.mem_cons_of_mem _ hx))⟩
    intro hmem
    obtain ⟨b, c, hb, hec, hcnt⟩ := dedupAux_shape (h :: seen) t _ hmem
    have hhM : h ∈ M := hns h (List.mem_cons_self _ _)
    have hbM : b ∈ M := hns b (List.mem_cons_of_mem _ hb)
    have hdata := congrArg String.data hec
    rw [String.data_append, String.data_append] at hdata
    by_cases hbh : b = h
    · subst hbh
      have hlt : seen.count b + 1 ≤ c := by
        rw [List.count_cons_self] at hcnt
        omega
      have heq : sfx (seen.count b) = sfx c :=
        String.ext (List.append_cancel_left hdata)
      have := sfx_inj _ _ heq
      omega
    · rcases List.append_eq_append_iff.mp hdata with ⟨a', ha1, ha2⟩ | ⟨c', hc1, hc2⟩
      · by_cases ha' : a' = []
        · subst ha'
          rw [List.append_nil] at ha1
          exact hbh (String.ext ha1)
        · have hstr : b = h ++ (⟨a'⟩ : String) := by
            apply String.ext
            rw [String.data_append]
            exact ha1
          have hdig : ∀ ch ∈ (⟨a'⟩ : String).data, ch.isDigit = true := by
            intro ch hch
            have hm : ch ∈ (sfx (seen.count h)).data := by
              rw [ha2]
              exact List.mem_append_left _ hch
            exact sfx_digits _ ch hm
          have hne : (⟨a'⟩ : String) ≠ "" := fun e => ha' (congrArg String.data e)
          exact H b hbM h hhM ⟨a'⟩ hne hdig hstr
      · by_cases hc' : c' = []
        · subst hc'
          rw [List.append_nil] at hc1
          exact hbh (String.ext hc1).symm
        · have hstr : h = b ++ (⟨c'⟩ : String) := by
            apply String.ext
            rw [String.data_append]
            exact hc1
          have hdig : ∀ ch ∈ (⟨c'⟩ : String).data, ch.isDigit = true := by
            intro ch hch
            have hm : ch ∈ (sfx c).data := by
              rw [hc2]
              exact List.mem_append_left _ hch
            exact sfx_digits _ ch hm
          have hne : (⟨c'⟩ : String) ≠ "" := fun e => hc' (congrArg String.data e)
          exact H h hhM b hbM ⟨c'⟩ hne hdig hstr

/-! ## Claim C3: strip is the identity on the deduplicated headers -/

theorem dropWhile_eq_self_of_head {α : Type} (p : α → Bool) (l : List α)
    (h : ∀ c ∈ l.head?, p c = false) : l.dropWhile p = l := by
  cases l with
  | nil => rfl
  | cons c t =>
    rw [List.dropWhile_cons, h c rfl]
    simp

theorem head_false_of_dropWhile_eq_self {α : Type} (p : α → Bool) (l : List α)
    (h : l.dropWhile p = l) : ∀ c ∈ l.head?, p c = false := by
  cases l with
  | nil => intro c hc; exact absurd hc (by simp)
  | cons c t =>
    intro d hd
    simp only [List.head?_cons, Option.mem_def, Option.some.injEq] at hd
    subst hd
    by_contra hp
    rw [Bool.not_eq_false] at hp
    rw [List.dropWhile_cons, if_pos hp] at h
    have := congrArg List.length h
    have hle := (List.dropWhile_sublist (l := t) p).length_le
    simp only [List.length_cons] at this
    omega

theorem dropWhile_idem {α : Type} (p : α → Bool) (l : List α) :
    (l.dropWhile p).dropWhile p = l.dropWhile p := by
  induction l with
  | nil => rfl
  | cons c t ih =>
    rw [List.dropWhile_cons]
    by_cases hp : p c
    · rw [if_pos hp]; exact ih
    · rw [if_neg hp, List.dropWhile_cons, if_neg hp]

theorem prefix_head {α : Type} (l₁ l₂ : List α) (h : l₁ <+: l₂) (hne : l₁ ≠ []) :
    l₁.head? = l₂.head? := by
  obtain ⟨r, hr⟩ := h
  cases l₁ with
  | nil => exact absurd rfl hne
  | cons c t => rw [← hr]; rfl

theorem stripChars_front_fixed (l : List Char) :
    (stripChars l).dropWhile Char.isWhitespace = stripChars l := by
  by_cases hnil : stripChars l = []
  · rw [hnil]; rfl
  · apply dropWhile_eq_self_of_head
    have hpre : stripChars l <+: l.dropWhile Char.isWhitespace := by
      have h1 : ((l.dropWhile Char.isWhitespace).reverse.dropWhile Char.isWhitespace).reverse <+:
          ((l.dropWhile Char.isWhitespace).reverse).reverse :=
        List.reverse_prefix.mpr (List.dropWhile_suffix Char.isWhitespace)
      rw [List.reverse_reverse] at h1
      exact h1
    have hhd : (stripChars l).head? = (l.dropWhile Char.isWhitespace).head? :=
      prefix_head _ _ hpre hnil
    rw [hhd]
    exact head_false_of_dropWhile_eq_self _ _ (dropWhile_idem _ l)

theorem stripChars_back_fixed (l : List Char) :
    (stripChars l).reverse.dropWhile Char.isWhitespace = (stripChars l).reverse := by
  have h1 : (stripChars l).reverse =
      (l.dropWhile Char.isWhitespace).reverse.dropWhile Char.isWhitespace := by
    show (((l.dropWhile Char.isWhitespace).reverse.dropWhile Char.isWhitespace).reverse).reverse = _
    rw [List.reverse_reverse]
  rw [h1]
  exact dropWhile_idem _ _

theorem stripChars_idem (l : List Char) : stripChars (stripChars l) = stripChars l := by
  show (((stripChars l).dropWhile Char.isWhitespace).reverse.dropWhile Char.isWhitespace).reverse
      = stripChars l
  rw [stripChars_front_fixed l, stripChars_back_fixed l, List.reverse_reverse]

theorem front_fixed_of_stripChars_fixed (l : List Char) (h : stripChars l = l) :
    l.dropWhile Char.isWhitespace = l := by
  calc l.dropWhile Char.isWhitespace
      = (stripChars l).dropWhile Char.isWhitespace := by rw [h]
    _ = stripChars l := stripChars_front_fixed l
    _ = l := h

theorem digit_not_ws (c : Char) (h : c.isDigit = true) : c.isWhitespace = false := by
  by_contra hws
  rw [Bool.not_eq_false] at hws
  simp only [Char.isWhitespace, Bool.or_eq_true, decide_eq_true_eq] at hws
  rcases hws with ((h1 | h1) | h1) | h1 <;> subst h1 <;> exact absurd h (by decide)

theorem stripChars_append_digits (la : List Char) (ha : stripChars la = la) (hne : la ≠ [])
    (r : List Char) (hr : r ≠ []) (hdig : ∀ ch ∈ r, ch.isDigit = true) :
    stripChars (la ++ r) = la ++ r := by
  have hfrontA : la.dropWhile Char.isWhitespace = la := front_fixed_of_stripChars_fixed la ha
  have hfront : (la ++ r).dropWhile Char.isWhitespace = la ++ r := by
    rw [List.dropWhile_append, hfrontA]
    have hfe : la.isEmpty = false := by
      cases la
      · exact absurd rfl hne
      · rfl
    rw [hfe]
    simp
  obtain ⟨d, r', hr'⟩ : ∃ d r', r.reverse = d :: r' := by
    cases hrr : r.reverse with
    | nil =>
      exact absurd (by rw [← List.reverse_reverse r, hrr]; rfl) hr
    | cons d r' => exact ⟨d, r', rfl⟩
  have hd : d.isDigit = true :=
    hdig d (List.mem_reverse.mp (hr' ▸ List.mem_cons_self d r'))
  have hback : (la ++ r).reverse.dropWhile Char.isWhitespace = (la ++ r).reverse := by
    apply dropWhile_eq_self_of_head
    intro c hc
    rw [List.reverse_append, hr', List.cons_append] at hc
    simp only [List.head?_cons, Option.mem_def, Option.some.injEq] at hc
    subst hc
    exact digit_not_ws d hd
  show (((la ++ r).dropWhile Char.isWhitespace).reverse.dropWhile Char.isWhitespace).reverse
      = la ++ r
  rw [hfront, hback, List.reverse_reverse]

theorem normHeader_fixed (s : String) : pyStrip (normHeader s) = normHeader s ∧ normHeader s ≠ "" := by
  unfold normHeader
  split
  · exact ⟨by decide, by decide⟩
  · rename_i hne
    refine ⟨?_, hne⟩
    show pyStrip (pyStrip s) = pyStrip s
    unfold pyStrip
    exact congrArg String.mk (stripChars_idem s.data)

theorem dedupAux_strip_fixed (ns seen : List String)
    (hfix : ∀ x ∈ ns, pyStrip x = x ∧ x ≠ "") :
    ∀ e ∈ dedupAux seen ns, pyStrip e = e := by
  intro e he
  obtain ⟨b, c, hb, hec, _⟩ := dedupAux_shape seen ns e he
  obtain ⟨hbfix, hbne⟩ := hfix b hb
  subst hec
  by_cases hc : c = 0
  · subst hc
    show pyStrip (b ++ sfx 0) = b ++ sfx 0
    have h0 : sfx 0 = "" := rfl
    rw [h0, String.append_empty]
    exact hbfix
  · have hdata : (b ++ sfx c).data = b.data ++ (sfx c).data := String.data_append b (sfx c)
    apply String.ext
    show stripChars ((b ++ sfx c).data) = (b ++ sfx c).data
    rw [hdata]
    apply stripChars_append_digits
    · exact congrArg String.data hbfix
    · exact fun e0 => hbne (String.ext e0)
    · intro e0
      have hsfx : sfx c = "" := String.ext e0
      unfold sfx at hsfx
      rw [if_neg hc] at hsfx
      exact repr_ne_empty c hsfx
    · exact sfx_digits c

/-- Sufficient decidable criterion for the no-digit-extension hypothesis of
the header-uniqueness theorem: for every ordered pair of normalized names,
either the first is no longer than the second, or the second is not a prefix
of the first, or the leftover characters are not all digits. -/
theorem digit_ext_check (ns : List String)
    (hch : ∀ a ∈ ns, ∀ b ∈ ns, a.length ≤ b.length ∨ ¬ (b.data <+: a.data) ∨
      ¬ ((a.data.drop b.length).all Char.isDigit = true)) :
    ∀ a ∈ ns, ∀ b ∈ ns, ∀ t : String, t ≠ "" →
      (∀ ch ∈ t.data, ch.isDigit = true) → a ≠ b ++ t := by
  intro a ha b hb t ht hdig heq
  have hdata : a.data = b.data ++ t.data := by rw [heq]; exact String.data_append b t
  have htne : t.data ≠ [] := fun e => ht (String.ext e)
  have htlen : 1 ≤ t.data.length := by
    cases hte : t.data
    · exact absurd hte htne
    · simp
  have hlen : a.length = b.length + t.length := by
    show a.data.length = b.data.length + t.data.length
    rw [hdata]
    exact List.length_append _ _
  have hpre : b.data <+: a.data := ⟨t.data, hdata.symm⟩
  have hdrop : a.data.drop b.length = t.data := by
    rw [hdata]
    exact List.drop_left _ _
  have hall : (a.data.drop b.length).all Char.isDigit = true := by
    rw [hdrop, List.all_eq_true]
    exact hdig
  rcases hch a ha b hb with hc | hc | hc
  · have : t.length = t.data.length := rfl
    omega
  · exact hc hpre
  · exact hc hall

/-- C3 (amended): the column names produced by the header normalization of
`fetch_data` are pairwise unique for every raw header row in which no
normalized name equals another normalized name followed by a nonempty string
of decimal digits (the counterexample shows a row like `["A", "A", "A1"]`,
where a name equals another plus a numeric suffix, produces a collision). -/
theorem c3_amended (hdr : List String)
    (H : ∀ a ∈ hdr.map normHeader, ∀ b ∈ hdr.map normHeader, ∀ t : String,
      t ≠ "" → (∀ ch ∈ t.data, ch.isDigit = true) → a ≠ b ++ t) :
    (fetchHeaders hdr).Nodup := by
  unfold fetchHeaders
  have hfix : ∀ x ∈ hdr.map normHeader, pyStrip x = x ∧ x ≠ "" := by
    intro x hx
    obtain ⟨s, _, hs⟩ := List.mem_map.mp hx
    rw [← hs]
    exact normHeader_fixed s
  apply List.Nodup.map_on
  · intro x hx y hy hxy
    rw [← dedupAux_strip_fixed _ [] hfix x hx, ← dedupAux_strip_fixed _ [] hfix y hy, hxy]
  · exact dedupAux_nodup (hdr.map normHeader) H (hdr.map normHeader) [] (fun x hx => hx)

/-- C3 witness: the header row `["A", "A", "", "B"]` satisfies the
no-digit-extension side condition, so its normalized column names are
pairwise unique. -/
theorem c3_witness : (fetchHeaders ["A", "A", "", "B"]).Nodup :=
  c3_amended ["A", "A", "", "B"] (digit_ext_check _ (by decide))
